import Mathlib

set_option maxRecDepth 20000

/-!
Verification development for the design-feedback CLI core:
the vision-service retry executor (`src/services/vision-service.ts`) and the
free-text issue extractor of the JSON formatter
(`src/utils/formatters/json-formatter.ts`).

Strings of the JavaScript source are modelled as `List Char` (wrapped in
`String` at the interfaces); JavaScript `trim`/`toLowerCase` are modelled with
`Char.isWhitespace` / `Char.toLower`.
-/

namespace DesignFeedback

/-- Whitespace predicate modelling the character class stripped by
JavaScript string trimming. -/
def wsp (c : Char) : Bool := c.isWhitespace

/-- Model of JavaScript `String.prototype.trim`. -/
def trimChars (cs : List Char) : List Char :=
  ((cs.dropWhile wsp).reverse.dropWhile wsp).reverse

/-- Model of JavaScript `String.prototype.toLowerCase`. -/
def lowerChars (cs : List Char) : List Char := cs.map Char.toLower

/-- Model of JavaScript `String.prototype.split` with a one-character
separator. -/
def splitOnChar (sep : Char) : List Char → List (List Char)
  | [] => [[]]
  | c :: cs =>
    if c = sep then [] :: splitOnChar sep cs
    else
      match splitOnChar sep cs with
      | [] => [[c]]
      | p :: ps => (c :: p) :: ps

/-- Model of JavaScript `Array.prototype.join` with a one-character
separator. -/
def joinWith (sep : Char) : List (List Char) → List Char
  | [] => []
  | [l] => l
  | l :: ls => l ++ sep :: joinWith sep ls

/-- Model of JavaScript `String.prototype.includes` (substring test). -/
def containsSeq (pat cs : List Char) : Bool := decide (pat <:+: cs)

/-- Does the line start with the character `c` (JavaScript
`String.prototype.startsWith` for a one-character pattern)? -/
def startsWithChar (c : Char) : List Char → Bool
  | [] => false
  | d :: _ => d = c

/-- Issue severity of the JSON formatter (`"critical" | "major" | "minor"`). -/
inductive Severity
  | critical
  | major
  | minor
deriving DecidableEq

/-- `StructuredIssue` of `src/utils/formatters/types.ts`. -/
structure StructuredIssue where
  severity : Severity
  category : String
  description : String
deriving DecidableEq

/-- `IssueMeta` of `json-formatter.ts`: the carry-forward severity/category
state. -/
structure IssueMeta where
  severity : Severity
  category : String
deriving DecidableEq

def generalCat : String := "General"

/-- Initial tracking state of `JsonFormatter.extractIssues`. -/
def defaultMeta : IssueMeta := ⟨Severity.major, generalCat⟩

def criticalKey : List Char := "critical".data

def majorKey : List Char := "major".data

def minorKey : List Char := "minor".data

def pdTag : List Char := "page description:".data

/-- `JsonFormatter.extractCategory`: category from a header line, preferring
the text after a `-` separator, then a fixed keyword table. -/
def extractCategory (header : List Char) : String :=
  match splitOnChar '-' header with
  | _ :: p1 :: _ => String.mk (trimChars p1)
  | _ =>
    let hl := lowerChars header
    if containsSeq ("navigation".data) hl then "Navigation"
    else if containsSeq ("layout".data) hl then "Layout"
    else if containsSeq ("responsive".data) hl then "Responsiveness"
    else if containsSeq ("accessibility".data) hl then "Accessibility"
    else if containsSeq ("performance".data) hl then "Performance"
    else if containsSeq ("visual".data) hl then "Visual Design"
    else if containsSeq ("content".data) hl then "Content"
    else generalCat

/-- `JsonFormatter.updateSeverityAndCategory`: update the carry-forward state
from a (possible) header line. -/
def updateSeverityAndCategory (line : List Char) (cur : IssueMeta) : IssueMeta :=
  let t := lowerChars (trimChars line)
  if containsSeq criticalKey t then ⟨Severity.critical, extractCategory line⟩
  else if containsSeq majorKey t then ⟨Severity.major, extractCategory line⟩
  else if containsSeq minorKey t then ⟨Severity.minor, extractCategory line⟩
  else cur

/-- `JsonFormatter.processIssueLine`: emit an issue for a bullet line
(`-` or `•`), stripping the marker and following whitespace. -/
def processIssueLine (line : List Char) (meta : IssueMeta) : Option StructuredIssue :=
  match trimChars line with
  | [] => none
  | c :: rest =>
    if c = '-' ∨ c = '•' then
      let desc := trimChars (rest.dropWhile wsp)
      if desc.isEmpty then none
      else some ⟨meta.severity, meta.category, String.mk desc⟩
    else none

/-- Does the line's trimmed, lowercased form start with `page description:`
(such lines are skipped by the extractor)? -/
def isPageDescLine (line : List Char) : Bool :=
  decide (pdTag <+: lowerChars (trimChars line))

/-- The fixed "no issues" phrase set of `json-formatter.ts`. -/
def noIssuesIndicators : List String :=
  ["no critical layout issues found",
   "no issues found",
   "no layout issues",
   "no visual issues",
   "no problems detected"]

/-- Does the (already lowercased) text contain one of the "no issues"
phrases? -/
def containsIndicatorIn (cs : List Char) : Bool :=
  noIssuesIndicators.any (fun ind => containsSeq (lowerChars ind.data) cs)

/-- `JsonFormatter.containsNoIssuesIndicator`. -/
def containsNoIssuesIndicator (content : List Char) : Bool :=
  containsIndicatorIn (lowerChars content)

/-- Per-line predicate of `JsonFormatter.findNoIssuesLine`. -/
def lineHasIndicator (line : List Char) : Bool :=
  containsIndicatorIn (lowerChars (trimChars line))

/-- The line-processing loop of `JsonFormatter.extractIssues`: skip page
description lines, update the carry-forward state, emit bullet issues. -/
def extractIssuesGo : List (List Char) → IssueMeta → List StructuredIssue
  | [], _ => []
  | l :: ls, cur =>
    if isPageDescLine l then extractIssuesGo ls cur
    else
      let cur2 := updateSeverityAndCategory l cur
      match processIssueLine l cur2 with
      | some i => i :: extractIssuesGo ls cur2
      | none => extractIssuesGo ls cur2

/-- The line list processed by `JsonFormatter.extractIssues`:
`content.split("\n").filter((line) => line.trim())`. -/
def stepLines (content : List Char) : List (List Char) :=
  (splitOnChar '\n' content).filter (fun l => !(trimChars l).isEmpty)

/-- The issues produced by the line loop of `JsonFormatter.extractIssues`
(step 3 of the spec), before the catch-all fallback. -/
def stepThreeIssues (content : List Char) : List StructuredIssue :=
  extractIssuesGo (stepLines content) defaultMeta

/-- `JsonFormatter.extractIssues` on a character list. -/
def extractIssuesL (content : List Char) : List StructuredIssue :=
  let issues := stepThreeIssues content
  if issues.isEmpty && !(trimChars content).isEmpty && !containsNoIssuesIndicator content
  then [⟨Severity.major, generalCat, String.mk (trimChars content)⟩]
  else issues

/-- `JsonFormatter.extractIssues`. -/
def extractIssues (content : String) : List StructuredIssue :=
  extractIssuesL content.data

/-- `JsonFormatter.findNoIssuesLine`: first line whose trimmed lowercased form
contains a "no issues" phrase, returned trimmed. -/
def findNoIssuesLine (lines : List (List Char)) : Option (List Char) :=
  (lines.find? lineHasIndicator).map trimChars

/-- Header predicate of `JsonFormatter.findSummarySection`. -/
def isSummaryHeader (l : List Char) : Bool :=
  let ll := lowerChars l
  containsSeq ("overall".data) ll || containsSeq ("summary".data) ll ||
    containsSeq ("assessment".data) ll

/-- `JsonFormatter.findSummarySection`: after a summary-header line, join the
next up to four non-blank, non-`-` lines. -/
def findSummarySection (lines : List (List Char)) : Option (List Char) :=
  match lines.findIdx? isSummaryHeader with
  | some i =>
    let sls := ((lines.drop (i + 1)).take 4).filter
      (fun l => !(trimChars l).isEmpty && !startsWithChar '-' l)
    let joined := trimChars (joinWith ' ' sls)
    if joined.isEmpty then none else some joined
  | none => none

/-- `JsonFormatter.isSeverityHeader`. -/
def isSeverityHeader (line : List Char) : Bool :=
  let ll := lowerChars line
  [criticalKey, majorKey, minorKey, "issues".data, "recommendations".data,
    "assessment".data].any (fun k => containsSeq k ll)

def fallbackSummary : String := "Design analysis completed successfully."

/-- The line list used by `JsonFormatter.extractSummary`: all lines except
`page description:` ones (blank lines are kept). -/
def filteredLinesOf (content : List Char) : List (List Char) :=
  (splitOnChar '\n' content).filter (fun l => !isPageDescLine l)

/-- `JsonFormatter.extractSummary` on a character list. -/
def extractSummaryL (content : List Char) : List Char :=
  let filteredLines := filteredLinesOf content
  let trimmedContent := trimChars (joinWith '\n' filteredLines)
  if containsIndicatorIn (lowerChars trimmedContent) then
    (findNoIssuesLine filteredLines).getD trimmedContent
  else
    match findSummarySection filteredLines with
    | some s => s
    | none =>
      match filteredLines.find? (fun l => !(trimChars l).isEmpty && !isSeverityHeader l &&
          !startsWithChar '-' l && !startsWithChar '•' l) with
      | some l => trimChars l
      | none => fallbackSummary.data

/-- `JsonFormatter.extractSummary`. -/
def extractSummary (content : String) : String :=
  String.mk (extractSummaryL content.data)

def pdFallback : String := "No page description provided."

/-- `JsonFormatter.extractPageDescription`: first `page description:` line with
the tag stripped (the strip regex is anchored at the raw start of the line). -/
def extractPageDescription (content : String) : String :=
  match (splitOnChar '\n' content.data).find? isPageDescLine with
  | some l =>
    let stripped :=
      if decide (pdTag <+: lowerChars l) then (l.drop pdTag.length).dropWhile wsp else l
    String.mk (trimChars stripped)
  | none => pdFallback

/-- `JsonFormatter.parseAnalysis`, restricted to the three content-derived
fields (the remaining fields of `StructuredOutput` are copied verbatim from
the `AnalysisResult`). -/
def parseTriple (content : String) : List StructuredIssue × String × String :=
  (extractIssues content, extractSummary content, extractPageDescription content)

/-- A raw model answer as handed to the formatter (`AnalysisResult` of
`src/types/analysis.ts`, content plus metadata fields). -/
structure RawAnalysisRec where
  content : String
  timestamp : String
  viewport : String
  model : String
deriving DecidableEq

/-- `JsonFormatter.parseAnalysis` applied to a full record: the extraction
reads only the `content` field. -/
def parseAnalysisTriple (r : RawAnalysisRec) : List StructuredIssue × String × String :=
  parseTriple r.content

/-! ### Spec-side characterisation of the carry-forward state machine -/

/-- Spec-side: a header line is one whose trimmed lowercased form mentions
critical, major or minor. -/
def isHeaderLine (l : List Char) : Bool :=
  let t := lowerChars (trimChars l)
  containsSeq criticalKey t || containsSeq majorKey t || containsSeq minorKey t

/-- Spec-side: the severity/category a header line sets (critical before
major before minor, category from `extractCategory`). -/
def applyHeader (l : List Char) : IssueMeta :=
  let t := lowerChars (trimChars l)
  if containsSeq criticalKey t then ⟨Severity.critical, extractCategory l⟩
  else if containsSeq majorKey t then ⟨Severity.major, extractCategory l⟩
  else ⟨Severity.minor, extractCategory l⟩

/-- Spec-side: the state set by the most recent header line of `ls` (the
base state when `ls` has no header line). -/
def lastHeaderMeta (base : IssueMeta) (ls : List (List Char)) : IssueMeta :=
  match (ls.filter isHeaderLine).getLast? with
  | some h => applyHeader h
  | none => base

/-- Spec-side issue list, following the spec's carry-forward wording: the
bullet at position i is emitted with the severity/category of the most
recent header line at or before position i, in source order. -/
def specIssues (base : IssueMeta) (ls : List (List Char)) : List StructuredIssue :=
  (List.range ls.length).filterMap (fun i =>
    processIssueLine (ls.getD i []) (lastHeaderMeta base (ls.take (i + 1))))

/-- The lines the extractor loop actually processes: non-blank and not page
description lines. -/
def procLines (content : List Char) : List (List Char) :=
  (stepLines content).filter (fun l => !isPageDescLine l)

/-! ## The resilient remote-call executor (`VisionService`) -/

/-- `AnalysisResult` of `src/types/analysis.ts` (the fields produced by
`VisionService.processOpenAIResponse`). -/
structure AnalysisResult where
  content : String
  timestamp : String
  viewport : String
  model : String
deriving DecidableEq

/-- `AnalysisError` as built by `VisionService.handleApiError`,
`handleNetworkError`, `handleGenericError` and `processOpenAIResponse`:
an error type tag plus code, message and optional status/details. -/
structure AnalysisError where
  type : String
  code : String
  message : String
  status : Option Nat
  details : Option String
deriving DecidableEq

/-- A raw per-attempt failure as seen by the retry loop: a thrown
`OpenAI.APIError` (with optional HTTP status, message, and error body), a
`FetchError`, or any other thrown `Error` (e.g. the `Request timeout`
rejection). -/
inductive RawError
  | apiError (status : Option Nat) (message : String) (body : String)
  | fetchError (message : String)
  | otherError (message : String)
deriving DecidableEq

/-- What one remote attempt yields before classification: either a resolved
chat completion carrying `choices[0]?.message?.content` (which may be absent),
or a thrown error. -/
abbrev AttemptOutcome := Except RawError (Option String)

/-- `VisionService.getApiErrorCode`. -/
def getApiErrorCode (status : Option Nat) : String :=
  match status with
  | some s =>
    if s = 429 then "RATE_LIMIT"
    else if s = 401 then "INVALID_KEY"
    else if s = 400 then "BAD_REQUEST"
    else if s = 415 then "INVALID_IMAGE"
    else if 500 ≤ s then "SERVER_ERROR"
    else "NETWORK_ERROR"
  | none => "NETWORK_ERROR"

/-- `VisionService.shouldNotRetry`: an `OpenAI.APIError` with a defined status
in the 4xx range. -/
def shouldNotRetry : RawError → Bool
  | RawError.apiError (some s) _ _ => 400 ≤ s && s < 500
  | _ => false

/-- `VisionService.handleApiError` (the returned `Err` value). -/
def handleApiError (status : Option Nat) (message body : String) : AnalysisError :=
  { type := "API_ERROR"
    code := getApiErrorCode status
    message := "OpenAI API error: " ++ message
    status := status
    details := some body }

/-- `VisionService.handleNetworkError` (the returned `Err` value). -/
def handleNetworkError (message : String) : AnalysisError :=
  { type := "NETWORK_ERROR"
    code := "CONNECTION_ERROR"
    message := "Network error while calling OpenAI API. Please check your internet connection. "
      ++ message
    status := none
    details := none }

/-- `VisionService.handleGenericError` (the returned `Err` value). -/
def handleGenericError (message : String) : AnalysisError :=
  { type := "ANALYSIS_ERROR"
    code := "PROCESSING_FAILED"
    message := message
    status := none
    details := none }

/-- `VisionService.handleError`: dispatch on the shape of the raw error. -/
def handleError : RawError → AnalysisError
  | RawError.apiError status message body => handleApiError status message body
  | RawError.fetchError message => handleNetworkError message
  | RawError.otherError message => handleGenericError message

/-- `VisionService.handleError` applied to the loop's `lastError` variable,
which is `undefined` (hence not an `Error`) only if no attempt ever ran. -/
def handleLastError : Option RawError → AnalysisError
  | some e => handleError e
  | none => handleGenericError "Unknown error during analysis"

/-- The `INVALID_RESPONSE` error of `VisionService.processOpenAIResponse`. -/
def invalidResponseError : AnalysisError :=
  { type := "ANALYSIS_ERROR"
    code := "INVALID_RESPONSE"
    message := "No analysis content received from OpenAI"
    status := none
    details := none }

/-- Is `choices[0]?.message?.content` falsy (absent or empty)? -/
def contentFalsy : Option String → Bool
  | none => true
  | some t => t.isEmpty

/-- The model identifier stamped on successful results. -/
def modelName : String := "gpt-image-1"

/-- `VisionService.processOpenAIResponse`: a 2xx completion with falsy content
becomes an `INVALID_RESPONSE` failure, otherwise a successful
`AnalysisResult`. -/
def processOpenAIResponse (content : Option String) (now viewport : String) :
    Except AnalysisError AnalysisResult :=
  match content with
  | some t =>
    if t.isEmpty then Except.error invalidResponseError
    else Except.ok { content := t, timestamp := now, viewport := viewport, model := modelName }
  | none => Except.error invalidResponseError

/-- `maxRetries` of `VisionService` (3 retries after the initial attempt). -/
def maxRetries : Nat := 3

/-- `retryDelay` of `VisionService`, in milliseconds. -/
def retryDelay : Nat := 1000

instance {ε α : Type} [DecidableEq ε] [DecidableEq α] : DecidableEq (Except ε α) := fun x y =>
  match x, y with
  | Except.ok a, Except.ok b =>
    if h : a = b then isTrue (by rw [h]) else isFalse (by simp [h])
  | Except.error a, Except.error b =>
    if h : a = b then isTrue (by rw [h]) else isFalse (by simp [h])
  | Except.ok _, Except.error _ => isFalse (by simp)
  | Except.error _, Except.ok _ => isFalse (by simp)

/-- The observable result of one `callOpenAI` execution: the returned
`Result`, the number of remote calls issued, the backoff delays awaited (in
order, in milliseconds), and the `apiKeyPrefix` debug-log field of
`logApiCallStart`. -/
structure ExecResult where
  outcome : Except AnalysisError AnalysisResult
  calls : Nat
  delays : List Nat
  keyLog : String
deriving DecidableEq

/-- The retry loop of `VisionService.callOpenAI`: attempts
`0 .. maxRetries`, a backoff of `retryDelay × 2^(attempt-1)` ms before every
retry, immediate return on success or on a non-retryable error, and
`handleError lastError` on exhaustion. `trace attempt` is what attempt number
`attempt` yields. -/
def callOpenAIGo (trace : Nat → AttemptOutcome) (now viewport keyLog : String) :
    Nat → Nat → Option RawError → Nat → List Nat → ExecResult
  | 0, _, last, calls, delays =>
    { outcome := Except.error (handleLastError last), calls := calls,
      delays := delays, keyLog := keyLog }
  | fuel + 1, attempt, last, calls, delays =>
    let delays2 := if 0 < attempt then delays ++ [retryDelay * 2 ^ (attempt - 1)] else delays
    match trace attempt with
    | Except.ok c =>
      { outcome := processOpenAIResponse c now viewport, calls := calls + 1,
        delays := delays2, keyLog := keyLog }
    | Except.error e =>
      if shouldNotRetry e then
        { outcome := Except.error (handleError e), calls := calls + 1,
          delays := delays2, keyLog := keyLog }
      else
        callOpenAIGo trace now viewport keyLog fuel (attempt + 1) (some e) (calls + 1) delays2

/-- The `apiKeyPrefix` value logged by `VisionService.logApiCallStart`:
the first seven characters of the credential plus `...`. -/
def keyPrefixLog (apiKey : String) : String :=
  String.mk (apiKey.data.take 7) ++ "..."

/-- `VisionService.callOpenAI`: run the retry loop from attempt 0 with no
last error. `trace` abstracts the remote endpoint (what each attempt's
`attemptApiRequest` yields), `now` the clock, `viewport` and `apiKey` the
request options. -/
def callOpenAI (trace : Nat → AttemptOutcome) (now viewport apiKey : String) : ExecResult :=
  callOpenAIGo trace now viewport (keyPrefixLog apiKey) (maxRetries + 1) 0 none 0 []

/-! ## Concrete fixtures for witnesses and counterexamples -/

def wTs : String := "2024-05-01T10:00:00Z"

def wViewport : String := "mobile"

def wKey : String := "sk-proj-abcdef123456"

def wKey2 : String := "sk-alt-zz9876543210"

def rateMsg : String := "Rate limit exceeded"

def rateBody : String := "rate-limit-details"

def err429 : RawError := RawError.apiError (some 429) rateMsg rateBody

def okText : String := "- Button overlaps footer"

/-- The remote behaviour of the spec's C1 scenario: HTTP 429 on attempts 1
and 2, success with a non-empty critique on attempt 3. -/
def traceC1 : Nat → AttemptOutcome := fun n =>
  if n < 2 then Except.error err429 else Except.ok (some okText)

def serverMsg : String := "Internal server error"

def serverBody : String := "server-error-details"

/-- Statuses for the C3 witness: 500 on attempt 1, 503 on attempt 2. -/
def stC3 : Nat → Nat := fun k => 500 + 3 * k

def traceC3 : Nat → AttemptOutcome := fun n =>
  if n < 2 then Except.error (RawError.apiError (some (stC3 n)) serverMsg serverBody)
  else Except.ok (some okText)

def err500 : RawError := RawError.apiError (some 500) serverMsg serverBody

def traceAll500 : Nat → AttemptOutcome := fun _ => Except.error err500

def authMsg : String := "Incorrect API key provided"

def authBody : String := "auth-error-details"

def trace401 : Nat → AttemptOutcome := fun _ =>
  Except.error (RawError.apiError (some 401) authMsg authBody)

/-- For the C7 witness: a 500 on attempt 1, then a 2xx completion whose
content field is the empty string. -/
def traceEmptyContent : Nat → AttemptOutcome := fun n =>
  if n = 0 then Except.error err500 else Except.ok (some "")

def wTs2 : String := "2024-06-02T12:00:00Z"

def wViewport2 : String := "desktop"

def c8rec1 : RawAnalysisRec := ⟨okText, wTs, wViewport, modelName⟩

def c8rec2 : RawAnalysisRec := ⟨okText, wTs2, wViewport2, modelName⟩

def blankInput : String := "   \n  "

def c6Input : String := "Critical Issues:\n- A\n\nMinor Issues:\n- B"

def c5NoIssues : String := "No critical layout issues found in this screenshot."

/-- A "no issues" phrase that occurs only inside a `page description:` line:
`extractIssues` sees it (it scans the raw content) but `extractSummary` does
not (it filters page-description lines first). -/
def pdNoIssues : String := "Page description: No issues found."

/-! ## Claims about the executor -/

/-- C1 counterexample: under the claimed scenario (429 on attempts 1 and 2,
success with `- Button overlaps footer` on attempt 3) the executor does NOT
retry and does NOT return Success after 3 calls with delays 1000 ms and
2000 ms: a 429 is a 4xx, `shouldNotRetry` holds, and the very first call
returns a `RATE_LIMIT` Failure with no backoff delay. -/
theorem c1_counterexample :
    (callOpenAI traceC1 wTs wViewport wKey).outcome =
      Except.error (AnalysisError.mk "API_ERROR" "RATE_LIMIT"
        ("OpenAI API error: " ++ rateMsg) (some 429) (some rateBody)) ∧
    (callOpenAI traceC1 wTs wViewport wKey).calls = 1 ∧
    (callOpenAI traceC1 wTs wViewport wKey).delays = [] := by
  decide

/-- C1 (amended): for every execution in which the remote endpoint returns
HTTP 429 on attempt 1, the executor treats the failure as non-retryable
(429 lies in the 4xx range checked by `shouldNotRetry`) and returns the
classified `RATE_LIMIT` Failure after exactly one call, incurring no backoff
delay — regardless of what later attempts would have returned. -/
theorem c1_rate_limited_not_retried (trace : Nat → AttemptOutcome)
    (now viewport key msg body : String)
    (h : trace 0 = Except.error (RawError.apiError (some 429) msg body)) :
    callOpenAI trace now viewport key =
      { outcome := Except.error (handleApiError (some 429) msg body), calls := 1,
        delays := [], keyLog := keyPrefixLog key } := by
  simp [callOpenAI, callOpenAIGo, maxRetries, h, shouldNotRetry, handleError]

theorem c1_rate_limited_not_retried_witness :
    callOpenAI traceC1 wTs wViewport wKey =
      { outcome := Except.error (handleApiError (some 429) rateMsg rateBody), calls := 1,
        delays := [], keyLog := keyPrefixLog wKey } :=
  c1_rate_limited_not_retried traceC1 wTs wViewport wKey rateMsg rateBody (by decide)

/-- C2: for every execution whose first attempt fails with an HTTP status in
the 4xx range, the executor returns the classified Failure after exactly one
remote call, with no further attempts and no backoff delay. -/
theorem c2_client_error_no_retry (trace : Nat → AttemptOutcome)
    (now viewport key msg body : String) (s : Nat)
    (h : trace 0 = Except.error (RawError.apiError (some s) msg body))
    (h4 : 400 ≤ s) (h5 : s < 500) :
    callOpenAI trace now viewport key =
      { outcome := Except.error (handleApiError (some s) msg body), calls := 1,
        delays := [], keyLog := keyPrefixLog key } := by
  simp [callOpenAI, callOpenAIGo, maxRetries, h, shouldNotRetry, handleError, h4, h5]

theorem c2_client_error_no_retry_witness :
    400 ≤ 401 ∧ 401 < 500 ∧
    callOpenAI trace401 wTs wViewport wKey =
      { outcome := Except.error (handleApiError (some 401) authMsg authBody), calls := 1,
        delays := [], keyLog := keyPrefixLog wKey } :=
  ⟨by norm_num, by norm_num,
    c2_client_error_no_retry trace401 wTs wViewport wKey authMsg authBody 401 (by decide)
      (by norm_num) (by norm_num)⟩

/-- C3: for every sequence of N consecutive 5xx failures followed by a 2xx
success with non-empty text, with N < maxAttempts = 4, the executor returns
Success after exactly N+1 calls, with backoff delays of
`retryDelay × 2^(k-1)` ms before retry attempt k for k = 1..N (so a success
on the first attempt returns after one call with no delay). -/
theorem c3_server_errors_then_success (trace : Nat → AttemptOutcome)
    (now viewport key txt : String)
    (st : Nat → Nat) (ms bd : Nat → String) (N : Nat) (hN : N < 4)
    (herr : ∀ k, k < N → trace k = Except.error (RawError.apiError (some (st k)) (ms k) (bd k)))
    (hst : ∀ k, k < N → 500 ≤ st k)
    (hok : trace N = Except.ok (some txt)) (htxt : txt ≠ "") :
    callOpenAI trace now viewport key =
      { outcome := Except.ok (AnalysisResult.mk txt now viewport modelName),
        calls := N + 1,
        delays := (List.range N).map (fun k => retryDelay * 2 ^ k),
        keyLog := keyPrefixLog key } := by
  have hemp : txt.isEmpty = false := by
    rcases h : txt.isEmpty with _ | _
    · rfl
    · exact absurd ((String.isEmpty_iff txt).mp h) htxt
  have hsnr : ∀ k, k < N →
      shouldNotRetry (RawError.apiError (some (st k)) (ms k) (bd k)) = false := by
    intro k hk
    have := hst k hk
    simp [shouldNotRetry]
    omega
  interval_cases N
  · simp [callOpenAI, callOpenAIGo, maxRetries, hok, processOpenAIResponse, hemp]
  · simp [callOpenAI, callOpenAIGo, maxRetries, herr 0 (by norm_num), hsnr 0 (by norm_num),
      hok, processOpenAIResponse, hemp, List.range_succ]
  · simp [callOpenAI, callOpenAIGo, maxRetries, herr 0 (by norm_num), hsnr 0 (by norm_num),
      herr 1 (by norm_num), hsnr 1 (by norm_num),
      hok, processOpenAIResponse, hemp, List.range_succ]
  · simp [callOpenAI, callOpenAIGo, maxRetries, herr 0 (by norm_num), hsnr 0 (by norm_num),
      herr 1 (by norm_num), hsnr 1 (by norm_num), herr 2 (by norm_num), hsnr 2 (by norm_num),
      hok, processOpenAIResponse, hemp, List.range_succ]

theorem c3_server_errors_then_success_witness :
    callOpenAI traceC3 wTs wViewport wKey =
      { outcome := Except.ok (AnalysisResult.mk okText wTs wViewport modelName),
        calls := 3,
        delays := (List.range 2).map (fun k => retryDelay * 2 ^ k),
        keyLog := keyPrefixLog wKey } :=
  c3_server_errors_then_success traceC3 wTs wViewport wKey okText stC3
    (fun _ => serverMsg) (fun _ => serverBody) 2 (by norm_num)
    (by decide) (by decide) (by decide) (by decide)

/-- C4: for every execution in which all four attempts fail with retryable
errors (any raw error for which `shouldNotRetry` is false, i.e. 5xx,
status-less API errors, network errors, timeouts), the executor makes exactly
maxRetries + 1 = 4 remote calls, waits 1000, 2000 and 4000 ms before the
three retries, and returns the Failure built from the last observed error. -/
theorem c4_exhausted_retries (trace : Nat → AttemptOutcome) (now viewport key : String)
    (errs : Nat → RawError)
    (herr : ∀ k, k < 4 → trace k = Except.error (errs k))
    (hret : ∀ k, k < 4 → shouldNotRetry (errs k) = false) :
    callOpenAI trace now viewport key =
      { outcome := Except.error (handleError (errs 3)), calls := 4,
        delays := [1000, 2000, 4000], keyLog := keyPrefixLog key } := by
  simp [callOpenAI, callOpenAIGo, maxRetries, herr 0 (by norm_num), hret 0 (by norm_num),
    herr 1 (by norm_num), hret 1 (by norm_num), herr 2 (by norm_num), hret 2 (by norm_num),
    herr 3 (by norm_num), hret 3 (by norm_num), handleLastError, retryDelay]

theorem c4_exhausted_retries_witness :
    callOpenAI traceAll500 wTs wViewport wKey =
      { outcome := Except.error (handleError err500), calls := 4,
        delays := [1000, 2000, 4000], keyLog := keyPrefixLog wKey } :=
  c4_exhausted_retries traceAll500 wTs wViewport wKey (fun _ => err500)
    (by decide) (by decide)

/-- A falsy content field always classifies as `INVALID_RESPONSE`. -/
theorem processFalsy (c : Option String) (now viewport : String)
    (h : contentFalsy c = true) :
    processOpenAIResponse c now viewport = Except.error invalidResponseError := by
  cases c with
  | none => rfl
  | some t =>
    simp [contentFalsy] at h
    simp [processOpenAIResponse, h]

/-- C7: for every execution in which attempt j (after j retryable failures)
receives a 2xx response whose content field is missing or empty, the executor
returns the `INVALID_RESPONSE` Failure immediately after that call — exactly
j+1 calls in total, consuming none of the remaining retry attempts. -/
theorem c7_invalid_response_no_retry (trace : Nat → AttemptOutcome)
    (now viewport key : String)
    (errs : Nat → RawError) (c : Option String) (j : Nat) (hj : j < 4)
    (hpre : ∀ k, k < j → trace k = Except.error (errs k))
    (hpret : ∀ k, k < j → shouldNotRetry (errs k) = false)
    (hok : trace j = Except.ok c) (hfal : contentFalsy c = true) :
    callOpenAI trace now viewport key =
      { outcome := Except.error invalidResponseError, calls := j + 1,
        delays := (List.range j).map (fun k => retryDelay * 2 ^ k),
        keyLog := keyPrefixLog key } := by
  have hp := processFalsy c now viewport hfal
  interval_cases j
  · simp [callOpenAI, callOpenAIGo, maxRetries, hok, hp]
  · simp [callOpenAI, callOpenAIGo, maxRetries, hpre 0 (by norm_num), hpret 0 (by norm_num),
      hok, hp, List.range_succ]
  · simp [callOpenAI, callOpenAIGo, maxRetries, hpre 0 (by norm_num), hpret 0 (by norm_num),
      hpre 1 (by norm_num), hpret 1 (by norm_num), hok, hp, List.range_succ]
  · simp [callOpenAI, callOpenAIGo, maxRetries, hpre 0 (by norm_num), hpret 0 (by norm_num),
      hpre 1 (by norm_num), hpret 1 (by norm_num), hpre 2 (by norm_num), hpret 2 (by norm_num),
      hok, hp, List.range_succ]

theorem c7_invalid_response_no_retry_witness :
    callOpenAI traceEmptyContent wTs wViewport wKey =
      { outcome := Except.error invalidResponseError, calls := 2,
        delays := (List.range 1).map (fun k => retryDelay * 2 ^ k),
        keyLog := keyPrefixLog wKey } :=
  c7_invalid_response_no_retry traceEmptyContent wTs wViewport wKey
    (fun _ => err500) (some "") 1 (by norm_num) (by decide) (by decide) (by decide) (by decide)

/-- The retry loop's observable behaviour depends on the credential only
through the logged prefix field. -/
theorem callOpenAIGo_keyLog (trace : Nat → AttemptOutcome) (now viewport kl kl2 : String) :
    ∀ fuel attempt last calls delays,
      callOpenAIGo trace now viewport kl fuel attempt last calls delays =
        { callOpenAIGo trace now viewport kl2 fuel attempt last calls delays with
            keyLog := kl } := by
  intro fuel
  induction fuel with
  | zero => intro attempt last calls delays; simp [callOpenAIGo]
  | succ n ih =>
    intro attempt last calls delays
    simp only [callOpenAIGo]
    cases h : trace attempt with
    | ok c => simp
    | error e =>
      by_cases hs : shouldNotRetry e = true
      · simp [hs]
      · simp only [Bool.not_eq_true] at hs
        simp [hs, ih]

/-- C9: two executions that differ only in the credential but see the same
remote behaviour produce identical outcomes (hence identical Failure messages
and details), identical call counts and identical delays; the only
key-derived observable is the logged prefix, which is the first seven
characters of the credential followed by `...`. -/
theorem c9_credential_noninterference (trace : Nat → AttemptOutcome)
    (now viewport k1 k2 : String) :
    (callOpenAI trace now viewport k1).outcome = (callOpenAI trace now viewport k2).outcome ∧
    (callOpenAI trace now viewport k1).calls = (callOpenAI trace now viewport k2).calls ∧
    (callOpenAI trace now viewport k1).delays = (callOpenAI trace now viewport k2).delays ∧
    (callOpenAI trace now viewport k1).keyLog = keyPrefixLog k1 := by
  unfold callOpenAI
  rw [callOpenAIGo_keyLog trace now viewport (keyPrefixLog k1) (keyPrefixLog k2)]
  simp

/-! ## Claims about the extractor: purity and blank input -/

/-- Helper: a nil trim means every character is whitespace. -/
theorem trimChars_nil_all_ws {cs : List Char} (h : trimChars cs = []) :
    ∀ c ∈ cs, wsp c = true := by
  unfold trimChars at h
  have h1 : (cs.dropWhile wsp).reverse.dropWhile wsp = [] := by
    rw [← List.reverse_eq_nil_iff]
    exact h
  have h2 : ∀ c ∈ cs.dropWhile wsp, wsp c = true := by
    intro c hc
    exact List.dropWhile_eq_nil_iff.mp h1 c (List.mem_reverse.mpr hc)
  intro c hc
  rw [← List.takeWhile_append_dropWhile wsp cs] at hc
  rcases List.mem_append.mp hc with hc | hc
  · exact List.mem_takeWhile_imp hc
  · exact h2 c hc

/-- Helper: an all-whitespace list trims to nil. -/
theorem all_ws_trimChars_nil {cs : List Char} (h : ∀ c ∈ cs, wsp c = true) :
    trimChars cs = [] := by
  unfold trimChars
  rw [List.dropWhile_eq_nil_iff.mpr h]
  rfl

/-- Helper: every character of a split piece is a character of the input. -/
theorem mem_splitOnChar {sep : Char} : ∀ {cs p : List Char},
    p ∈ splitOnChar sep cs → ∀ c ∈ p, c ∈ cs := by
  intro cs
  induction cs with
  | nil =>
    intro p hp c hc
    simp [splitOnChar] at hp
    subst hp
    simp at hc
  | cons a cs ih =>
    intro p hp c hc
    rw [splitOnChar] at hp
    by_cases ha : a = sep
    · rw [if_pos ha] at hp
      rcases List.mem_cons.mp hp with rfl | hp
      · simp at hc
      · exact List.mem_cons_of_mem a (ih hp c hc)
    · rw [if_neg ha] at hp
      rcases hq : splitOnChar sep cs with _ | ⟨q, qs⟩ <;> rw [hq] at hp
      · rcases List.mem_cons.mp hp with rfl | hp
        · rw [List.mem_singleton] at hc
          rw [hc]
          exact List.mem_cons_self _ _
        · simp at hp
      · rcases List.mem_cons.mp hp with rfl | hp
        · rcases List.mem_cons.mp hc with rfl | hc
          · exact List.mem_cons_self _ _
          · exact List.mem_cons_of_mem a
              (ih (by rw [hq]; exact List.mem_cons_self _ _) c hc)
        · exact List.mem_cons_of_mem a
            (ih (by rw [hq]; exact List.mem_cons_of_mem _ hp) c hc)

/-- Helper: lowercasing fixes whitespace characters. -/
theorem toLower_ws_fix {c : Char} (h : wsp c = true) : Char.toLower c = c := by
  have hc : ((c = ' ' ∨ c = '\t') ∨ c = '\r') ∨ c = '\n' := by
    simpa [wsp, Char.isWhitespace] using h
  rcases hc with ((h | h) | h) | h <;> subst h <;> decide

/-- Helper: lowercasing an all-whitespace list keeps it all-whitespace. -/
theorem lowerChars_all_ws {cs : List Char} (h : ∀ c ∈ cs, wsp c = true) :
    ∀ c ∈ lowerChars cs, wsp c = true := by
  intro c hc
  rcases List.mem_map.mp hc with ⟨d, hd, rfl⟩
  rw [toLower_ws_fix (h d hd)]
  exact h d hd

/-- Helper: a pattern with a non-whitespace character never occurs in
all-whitespace text. -/
theorem containsSeq_false_of_all_ws (pat cs : List Char) (d : Char) (hd : d ∈ pat)
    (hdw : wsp d = false) (hws : ∀ c ∈ cs, wsp c = true) :
    containsSeq pat cs = false := by
  by_contra hx
  have hinf : pat <:+: cs := by
    simp only [containsSeq, Bool.not_eq_false, decide_eq_true_eq] at hx
    exact hx
  have hmem : d ∈ cs := hinf.subset hd
  rw [hws _ hmem] at hdw
  exact absurd hdw (by decide)

/-- C8: the free-text extraction is a pure function of the critique string:
applying it to two analysis records with the same `content` (hence applying
it twice to the same string) yields identical issues, summary and page
description — no other field and no hidden state influences the result. -/
theorem c8_extraction_pure (r1 r2 : RawAnalysisRec) (h : r1.content = r2.content) :
    parseAnalysisTriple r1 = parseAnalysisTriple r2 := by
  simp [parseAnalysisTriple, h]

theorem c8_extraction_pure_witness :
    parseAnalysisTriple c8rec1 = parseAnalysisTriple c8rec2 :=
  c8_extraction_pure c8rec1 c8rec2 rfl

/-- C10: an input whose trimmed content is empty (empty or whitespace-only)
yields an empty issue list — the catch-all issue is not produced even though
no "no issues" phrase is present. -/
theorem c10_blank_input_no_issues (s : String) (h : trimChars s.data = []) :
    extractIssues s = [] ∧ containsNoIssuesIndicator s.data = false := by
  have hall : ∀ c ∈ s.data, wsp c = true := trimChars_nil_all_ws h
  constructor
  · have hlines : stepLines s.data = [] := by
      unfold stepLines
      rw [List.filter_eq_nil_iff]
      intro l hl
      have : trimChars l = [] :=
        all_ws_trimChars_nil (fun c hc => hall c (mem_splitOnChar hl c hc))
      simp [this]
    unfold extractIssues extractIssuesL stepThreeIssues
    rw [hlines]
    simp [extractIssuesGo, h]
  · unfold containsNoIssuesIndicator containsIndicatorIn
    rw [List.any_eq_false]
    intro ind hind
    rw [Bool.not_eq_true]
    have hws := lowerChars_all_ws hall
    fin_cases hind <;>
      refine containsSeq_false_of_all_ws _ _ 'n' ?_ ?_ hws <;> decide

theorem c10_blank_input_no_issues_witness :
    trimChars blankInput.data = [] ∧
    (extractIssues blankInput = [] ∧ containsNoIssuesIndicator blankInput.data = false) :=
  ⟨by decide, c10_blank_input_no_issues blankInput (by decide)⟩

/-! ## Claim C6: the carry-forward state machine -/

/-- Helper: `updateSeverityAndCategory` acts as the spec's header transition. -/
theorem update_eq_header (l : List Char) (cur : IssueMeta) :
    updateSeverityAndCategory l cur = if isHeaderLine l then applyHeader l else cur := by
  unfold updateSeverityAndCategory applyHeader isHeaderLine
  by_cases h1 : containsSeq criticalKey (lowerChars (trimChars l)) = true <;>
    by_cases h2 : containsSeq majorKey (lowerChars (trimChars l)) = true <;>
      by_cases h3 : containsSeq minorKey (lowerChars (trimChars l)) = true <;>
        simp [h1, h2, h3]

/-- Helper: skipping page-description lines inside the loop equals filtering
them out beforehand. -/
theorem extractIssuesGo_filter_pd : ∀ (ls : List (List Char)) (cur : IssueMeta),
    extractIssuesGo ls cur = extractIssuesGo (ls.filter (fun l => !isPageDescLine l)) cur := by
  intro ls
  induction ls with
  | nil => intro cur; rfl
  | cons l ls ih =>
    intro cur
    by_cases hpd : isPageDescLine l = true
    · rw [extractIssuesGo, if_pos hpd]
      rw [List.filter_cons_of_neg (by simp [hpd])]
      exact ih cur
    · rw [Bool.not_eq_true] at hpd
      rw [extractIssuesGo, if_neg (by simp [hpd])]
      rw [List.filter_cons_of_pos (by simp [hpd])]
      rw [extractIssuesGo, if_neg (by simp [hpd])]
      cases hpi : processIssueLine l (updateSeverityAndCategory l cur) <;> simp [hpi, ih]

theorem lastHeaderMeta_nil (base : IssueMeta) : lastHeaderMeta base [] = base := rfl

/-- Helper: peeling one line off the most-recent-header state. -/
theorem lastHeaderMeta_cons (base : IssueMeta) (l : List Char) (ls : List (List Char)) :
    lastHeaderMeta base (l :: ls) = lastHeaderMeta (updateSeverityAndCategory l base) ls := by
  rw [update_eq_header]
  by_cases hh : isHeaderLine l = true
  · rw [if_pos hh]
    unfold lastHeaderMeta
    rw [List.filter_cons_of_pos hh]
    cases hfl : ls.filter isHeaderLine with
    | nil => rfl
    | cons q qs =>
      rw [List.getLast?_cons_cons]
      cases hgl : (q :: qs).getLast? with
      | none => rw [List.getLast?_eq_none_iff] at hgl; exact absurd hgl (by simp)
      | some h => rfl
  · rw [if_neg hh]
    unfold lastHeaderMeta
    rw [List.filter_cons_of_neg (by simpa using hh)]

/-- Helper: on page-description-free lines, the loop computes exactly the
spec-side most-recent-header issue list. -/
theorem extractIssuesGo_eq_specIssues : ∀ (ls : List (List Char)) (cur : IssueMeta),
    (∀ l ∈ ls, isPageDescLine l = false) → extractIssuesGo ls cur = specIssues cur ls := by
  intro ls
  induction ls with
  | nil => intro cur _; rfl
  | cons l ls ih =>
    intro cur hpd
    have hl : isPageDescLine l = false := hpd l (List.mem_cons_self _ _)
    have hls : ∀ x ∈ ls, isPageDescLine x = false :=
      fun x hx => hpd x (List.mem_cons_of_mem _ hx)
    rw [extractIssuesGo, if_neg (by simp [hl])]
    unfold specIssues
    rw [List.length_cons, List.range_succ_eq_map, List.filterMap_cons, List.filterMap_map]
    have hf0 : lastHeaderMeta cur ((l :: ls).take (0 + 1)) = updateSeverityAndCategory l cur := by
      simp [List.take_succ_cons, lastHeaderMeta_cons, lastHeaderMeta_nil]
    have htail :
        (fun i => processIssueLine ((l :: ls).getD i []) (lastHeaderMeta cur ((l :: ls).take (i + 1))))
            ∘ Nat.succ =
          fun i => processIssueLine (ls.getD i [])
            (lastHeaderMeta (updateSeverityAndCategory l cur) (ls.take (i + 1))) := by
      funext i
      simp [Function.comp, List.take_succ_cons, lastHeaderMeta_cons]
    rw [htail]
    simp only [List.getD_cons_zero, hf0]
    cases hpi : processIssueLine l (updateSeverityAndCategory l cur) with
    | some i =>
      simp only []
      rw [ih (updateSeverityAndCategory l cur) hls]
      rfl
    | none =>
      simp only []
      rw [ih (updateSeverityAndCategory l cur) hls]
      rfl

/-- C6: the extractor's severity/category state carries forward: whenever the
loop yields any issues, the issue list equals the spec-side list in which
each bullet line is emitted, in source order, with the severity and category
set by the most recent header line at or before it (major/General before any
header); in particular the spec's two-section example yields exactly
[(critical, General, A), (minor, General, B)]. -/
theorem c6_carry_forward :
    (∀ s : String, specIssues defaultMeta (procLines s.data) ≠ [] →
       extractIssues s = specIssues defaultMeta (procLines s.data)) ∧
    extractIssues c6Input =
      [⟨Severity.critical, generalCat, "A"⟩, ⟨Severity.minor, generalCat, "B"⟩] := by
  constructor
  · intro s hne
    have hpd : ∀ l ∈ procLines s.data, isPageDescLine l = false := by
      intro l hl
      have := List.of_mem_filter hl
      simpa using this
    have hloop : stepThreeIssues s.data = specIssues defaultMeta (procLines s.data) := by
      unfold stepThreeIssues
      rw [extractIssuesGo_filter_pd]
      exact extractIssuesGo_eq_specIssues _ _ hpd
    have hemp : (specIssues defaultMeta (procLines s.data)).isEmpty = false := by
      cases h : specIssues defaultMeta (procLines s.data) with
      | nil => exact absurd h hne
      | cons a as => rfl
    unfold extractIssues extractIssuesL
    rw [hloop]
    simp [hemp]
  · decide

theorem c6_carry_forward_witness :
    specIssues defaultMeta (procLines c6Input.data) ≠ [] ∧
    extractIssues c6Input = specIssues defaultMeta (procLines c6Input.data) :=
  ⟨by decide, c6_carry_forward.1 c6Input (by decide)⟩

/-! ## Claim C5: zero-issue cases and the catch-all fallback -/

/-- Helper: every list is a whitespace prefix, its trim, and a whitespace
suffix. -/
theorem trim_decomposition (V : List Char) :
    ∃ p q, (∀ c ∈ p, wsp c = true) ∧ (∀ c ∈ q, wsp c = true) ∧
      V = p ++ trimChars V ++ q := by
  refine ⟨V.takeWhile wsp, ((V.dropWhile wsp).reverse.takeWhile wsp).reverse, ?_, ?_, ?_⟩
  · intro c hc
    exact List.mem_takeWhile_imp hc
  · intro c hc
    exact List.mem_takeWhile_imp (List.mem_reverse.mp hc)
  · unfold trimChars
    conv_lhs => rw [← List.takeWhile_append_dropWhile wsp V]
    rw [List.append_assoc]
    congr 1
    conv_lhs => rw [← List.reverse_reverse (V.dropWhile wsp),
      ← List.takeWhile_append_dropWhile wsp (V.dropWhile wsp).reverse]
    rw [List.reverse_append]

/-- Helper: the trim of a list occurs in it. -/
theorem trimChars_occurs (V : List Char) : trimChars V <:+: V := by
  obtain ⟨p, q, _, _, hV⟩ := trim_decomposition V
  exact ⟨p, q, hV.symm⟩

/-- Helper: a pattern opening with a non-whitespace character that occurs in
`P ++ X` with `P` all-whitespace occurs in `X`. -/
theorem infix_strip_left {pat X : List Char} (a : Char)
    (hh : pat.head? = some a) (ha : wsp a = false) :
    ∀ (P : List Char), (∀ c ∈ P, wsp c = true) → pat <:+: P ++ X → pat <:+: X := by
  intro P
  induction P with
  | nil => intro _ h; simpa using h
  | cons c P ih =>
    intro hws h
    rcases pat with _ | ⟨x, t⟩
    · simp at hh
    · have hx : x = a := by simpa using hh
      subst hx
      rcases List.infix_cons_iff.mp (by simpa using h) with hp | hp
      · rcases List.cons_prefix_cons.mp hp with ⟨rfl, _⟩
        rw [hws x (List.mem_cons_self _ _)] at ha
        exact absurd ha (by decide)
      · exact ih (fun d hd => hws d (List.mem_cons_of_mem _ hd)) hp

/-- Helper: mirror image of `infix_strip_left` for a whitespace suffix. -/
theorem infix_strip_right {pat X : List Char} (b : Char)
    (hb : pat.getLast? = some b) (hbw : wsp b = false)
    (Q : List Char) (hws : ∀ c ∈ Q, wsp c = true) (h : pat <:+: X ++ Q) :
    pat <:+: X := by
  rw [← List.reverse_infix] at h ⊢
  rw [List.reverse_append] at h
  refine infix_strip_left b ?_ hbw Q.reverse ?_ h
  · rw [List.head?_reverse]
    exact hb
  · intro c hc
    exact hws c (List.mem_reverse.mp hc)

theorem joinWith_cons_cons (sep : Char) (a b : List Char) (bs : List (List Char)) :
    joinWith sep (a :: b :: bs) = a ++ sep :: joinWith sep (b :: bs) := rfl

/-- Helper: every member line occurs in the joined text. -/
theorem mem_joinWith_occurs (sep : Char) :
    ∀ (ls : List (List Char)) (l : List Char), l ∈ ls → l <:+: joinWith sep ls := by
  intro ls
  induction ls with
  | nil => intro l hl; simp at hl
  | cons a ls ih =>
    intro l hl
    rcases List.mem_cons.mp hl with rfl | hl
    · cases ls with
      | nil => exact List.infix_rfl
      | cons b bs =>
        rw [joinWith_cons_cons]
        exact (List.prefix_append l _).isInfix
    · cases ls with
      | nil => simp at hl
      | cons b bs =>
        rw [joinWith_cons_cons]
        refine (ih l hl).trans ⟨a ++ [sep], [], by simp⟩

/-- Helper: a phrase found in a line's trimmed lowercased form is found in
the trimmed lowercased join of any line list containing it (the phrase must
start and end with non-whitespace characters). -/
theorem indicator_line_to_joined {lines : List (List Char)} {l pat : List Char}
    (hmem : l ∈ lines) (a b : Char) (hha : pat.head? = some a) (hwa : wsp a = false)
    (hgb : pat.getLast? = some b) (hwb : wsp b = false)
    (hpat : pat <:+: lowerChars (trimChars l)) :
    pat <:+: lowerChars (trimChars (joinWith '\n' lines)) := by
  have h1 : pat <:+: lowerChars l :=
    hpat.trans (List.IsInfix.map Char.toLower (trimChars_occurs l))
  have h2 : pat <:+: lowerChars (joinWith '\n' lines) :=
    h1.trans (List.IsInfix.map Char.toLower (mem_joinWith_occurs '\n' lines l hmem))
  obtain ⟨p, q, hp, hq, hV⟩ := trim_decomposition (joinWith '\n' lines)
  rw [hV] at h2
  unfold lowerChars at h2
  rw [List.map_append, List.map_append] at h2
  have h3 := infix_strip_right b hgb hwb _ (lowerChars_all_ws hq) h2
  exact infix_strip_left a hha hwa _ (lowerChars_all_ws hp) h3

/-- C5 counterexample: for the input `Page description: No issues found.`
step 3 yields zero issues, the trimmed text is non-empty and contains a
"no issues" phrase, and the issue list is indeed empty — but the summary is
the fixed fallback, not the (unique, phrase-containing) first line: the
phrase sits in a `page description:` line, which the summary derivation
filters out. -/
theorem c5_counterexample :
    stepThreeIssues pdNoIssues.data = [] ∧
    trimChars pdNoIssues.data ≠ [] ∧
    containsNoIssuesIndicator pdNoIssues.data = true ∧
    lineHasIndicator pdNoIssues.data = true ∧
    extractIssues pdNoIssues = [] ∧
    extractSummary pdNoIssues = fallbackSummary ∧
    extractSummary pdNoIssues ≠ pdNoIssues := by
  decide

/-- C5 (amended): for every input in which step 3 produces zero issues and
the trimmed text is non-empty: if the text contains a "no issues" phrase the
issue list is empty, and the summary equals the trimmed first
phrase-containing line among the lines that survive the page-description
filter, whenever such a line exists (when the phrase occurs only inside
`page description:` lines the summary falls back to the general derivation);
if no phrase is present the extractor emits exactly one catch-all issue with
severity=major, category=General and the full trimmed input as
description. -/
theorem c5_zero_issue_cases (s : String)
    (h1 : stepThreeIssues s.data = [])
    (h2 : trimChars s.data ≠ []) :
    (containsNoIssuesIndicator s.data = true → extractIssues s = []) ∧
    (∀ l, (filteredLinesOf s.data).find? lineHasIndicator = some l →
       extractSummary s = String.mk (trimChars l)) ∧
    (containsNoIssuesIndicator s.data = false →
       extractIssues s =
         [⟨Severity.major, generalCat, String.mk (trimChars s.data)⟩]) := by
  have hne : (trimChars s.data).isEmpty = false := by
    cases h : trimChars s.data with
    | nil => exact absurd h h2
    | cons a as => rfl
  refine ⟨?_, ?_, ?_⟩
  · intro hci
    unfold extractIssues extractIssuesL
    rw [h1]
    simp [hci]
  · intro l hfind
    have hmem : l ∈ filteredLinesOf s.data := List.mem_of_find?_eq_some hfind
    have hline : lineHasIndicator l = true := List.find?_some hfind
    obtain ⟨ind, hindmem, hcont⟩ :=
      List.any_eq_true.mp (by simpa [lineHasIndicator, containsIndicatorIn] using hline)
    have hinf : lowerChars ind.data <:+: lowerChars (trimChars l) := by
      simpa [containsSeq] using hcont
    have hjoin : lowerChars ind.data <:+:
        lowerChars (trimChars (joinWith '\n' (filteredLinesOf s.data))) := by
      fin_cases hindmem
      · exact indicator_line_to_joined hmem 'n' 'd'
          (by decide) (by decide) (by decide) (by decide) hinf
      · exact indicator_line_to_joined hmem 'n' 'd'
          (by decide) (by decide) (by decide) (by decide) hinf
      · exact indicator_line_to_joined hmem 'n' 's'
          (by decide) (by decide) (by decide) (by decide) hinf
      · exact indicator_line_to_joined hmem 'n' 's'
          (by decide) (by decide) (by decide) (by decide) hinf
      · exact indicator_line_to_joined hmem 'n' 'd'
          (by decide) (by decide) (by decide) (by decide) hinf
    have hci : containsIndicatorIn
        (lowerChars (trimChars (joinWith '\n' (filteredLinesOf s.data)))) = true :=
      List.any_eq_true.mpr ⟨ind, hindmem, by simpa [containsSeq] using hjoin⟩
    have hsl : extractSummaryL s.data = trimChars l := by
      unfold extractSummaryL
      simp only [hci, if_true]
      unfold findNoIssuesLine
      rw [hfind]
      rfl
    unfold extractSummary
    rw [hsl]
  · intro hci
    unfold extractIssues extractIssuesL
    rw [h1]
    simp [hci, hne]

theorem c5_zero_issue_cases_witness :
    stepThreeIssues c5NoIssues.data = [] ∧ trimChars c5NoIssues.data ≠ [] ∧
    ((containsNoIssuesIndicator c5NoIssues.data = true → extractIssues c5NoIssues = []) ∧
     (∀ l, (filteredLinesOf c5NoIssues.data).find? lineHasIndicator = some l →
        extractSummary c5NoIssues = String.mk (trimChars l)) ∧
     (containsNoIssuesIndicator c5NoIssues.data = false →
        extractIssues c5NoIssues =
          [⟨Severity.major, generalCat, String.mk (trimChars c5NoIssues.data)⟩])) :=
  ⟨by decide, by decide, c5_zero_issue_cases c5NoIssues (by decide) (by decide)⟩

end DesignFeedback



